import Mathlib

/-!
Verification of the self-scheduling counter object `HelloObject23` from the
gem5 tutorial repository (src/reference/src/hello_object23.hh and
src/reference/src/hello_object23.cc).

The object is a plugin of a discrete-event simulator host.  Its observable
state consists of the two data members `latency` (a `const Tick`) and
`timesLeft` (a C `int`), together with the scheduling state of its single
`EventFunctionWrapper event` inside the host event queue: the event is either
idle or pending for one absolute tick.  We embed that state as a structure and
each member function as a state transformer.

Modelling notes:
* gem5's `Tick` is a 64-bit unsigned integer.  Every tick value reachable in
  this program is tiny (the constructed object fires 10 times with delay 100,
  so ticks stay at or below 1000), far below 2^64, so overflow cannot occur
  and `Tick` is embedded as `Nat`.
* `timesLeft` is a C `int`; the constructor stores 10 and the handler only
  ever subtracts 1 while at most one further firing can happen after the
  counter is exhausted, so signed overflow cannot occur and it is embedded
  as `Int`.
* Scheduling (`EventManager::schedule(event, when)`) and event dispatch are
  host facilities: the host dequeues a pending event at its scheduled tick
  and invokes the handler with `curTick()` equal to that tick.  The object
  owns exactly one event, so its queue state is an `Option Tick`.
-/

namespace HelloTutorial

/-- Simulated time of the host, gem5's `Tick`.  A 64-bit unsigned quantity in
the source; embedded as `Nat` because every reachable value in this program is
far below 2^64 (see the modelling notes above). -/
abbrev Tick := Nat

/-- State of a `HelloObject23` instance: the data members `latency` and
`timesLeft` of the class (src/reference/src/hello_object23.hh, lines 15-19)
plus the queue state of its single `event` member — `eventWhen = some t`
means the event is pending in the host event queue for absolute tick `t`,
`eventWhen = none` means it is not scheduled. -/
structure HelloObject23 where
  latency : Tick
  timesLeft : Int
  eventWhen : Option Tick
deriving DecidableEq

/-- Constructor `HelloObject23::HelloObject23` (hello_object23.cc, lines
10-15): the member initializer list stores `latency(100)` and `timesLeft(10)`;
the body only emits a `DPRINTF` line, and no scheduling call is made, so the
event starts unscheduled. -/
def construct : HelloObject23 :=
  { latency := 100, timesLeft := 10, eventWhen := none }

/-- A `HelloObject23` as built by the constructor but with delay `D` and
initial counter `N` in place of the hardcoded constants 100 and 10 (the spec
generalises over these construction-time constants; the member functions do
not depend on their particular values).  Like the constructor, it performs no
scheduling. -/
def mkObj (D : Tick) (N : Int) : HelloObject23 :=
  { latency := D, timesLeft := N, eventWhen := none }

/-- Host facility `EventManager::schedule(event, when)`: queue the object's
event for absolute tick `when`. -/
def schedule (s : HelloObject23) (when : Tick) : HelloObject23 :=
  { s with eventWhen := some when }

/-- Handler `HelloObject23::processEvent` (hello_object23.cc, lines 17-27),
invoked by the host at tick `curTick`: decrement `timesLeft`; if the new value
is at most 0, only print "Done firing!" (no scheduling call); otherwise call
`schedule(event, curTick() + latency)`. -/
def processEvent (s : HelloObject23) (curTick : Tick) : HelloObject23 :=
  let s1 : HelloObject23 := { s with timesLeft := s.timesLeft - 1 }
  if s1.timesLeft ≤ 0 then
    s1
  else
    schedule s1 (curTick + s1.latency)

/-- Activation hook `HelloObject23::startup` (hello_object23.cc, lines
29-32): `schedule(event, latency)` — the event is queued for the absolute
tick `latency`.  The host invokes this exactly once, before simulated time
begins advancing (i.e. at tick 0). -/
def startup (s : HelloObject23) : HelloObject23 :=
  schedule s s.latency

/-- One step of the host event loop restricted to this object: if the
object's event is pending for tick `t`, the host dequeues it and invokes the
handler with `curTick() = t`; otherwise nothing happens. -/
def fireEvent (s : HelloObject23) : HelloObject23 :=
  match s.eventWhen with
  | none => s
  | some t => processEvent { s with eventWhen := none } t

/-- `n` steps of the host event loop. -/
def run : Nat → HelloObject23 → HelloObject23
  | 0, s => s
  | n + 1, s => fireEvent (run n s)

/-- The ticks at which the object's event actually fires, watching the host
loop for at most `budget` steps. -/
def fireTicks : Nat → HelloObject23 → List Tick
  | 0, _ => []
  | budget + 1, s =>
    match s.eventWhen with
    | none => []
    | some t => t :: fireTicks budget (processEvent { s with eventWhen := none } t)

/-- The values taken by `timesLeft` after each successive firing, watching the
host loop for at most `budget` steps. -/
def counterTrace : Nat → HelloObject23 → List Int
  | 0, _ => []
  | budget + 1, s =>
    match s.eventWhen with
    | none => []
    | some t =>
      let s1 := processEvent { s with eventWhen := none } t
      s1.timesLeft :: counterTrace budget s1

/-- Number of callbacks of this object pending in the host queue (the object
owns a single event, so this is 0 or 1 by construction). -/
def pendingCount (s : HelloObject23) : Nat :=
  match s.eventWhen with
  | none => 0
  | some _ => 1

/-! ### Helper lemmas -/

/-- After `k ≤ N` firings following activation of an object with delay `D`
and initial counter `N > 0`: while `k < N`, the counter holds `N - k` and the
event is pending for tick `(k+1) * D`; at `k = N` the counter is 0 and the
event is idle. -/
lemma run_startup_mk (D N : Nat) (hN : 0 < N) :
    ∀ k, k ≤ N →
      run k (startup (mkObj D (N : Int))) =
        if k < N then ⟨D, (N : Int) - (k : Int), some ((k + 1) * D)⟩
        else ⟨D, 0, none⟩ := by
  intro k
  induction k with
  | zero =>
    intro _
    rw [if_pos hN]
    simp [run, startup, mkObj, schedule]
  | succ k ih =>
    intro hk
    have hklt : k < N := Nat.lt_of_succ_le hk
    have hrk := ih (Nat.le_of_succ_le hk)
    rw [if_pos hklt] at hrk
    show fireEvent (run k (startup (mkObj D (N : Int)))) = _
    rw [hrk]
    by_cases h : k + 1 < N
    · rw [if_pos h]
      have hcond : ¬ ((N : Int) - (k : Int) - 1 ≤ 0) := by omega
      simp only [fireEvent, processEvent, schedule]
      rw [if_neg hcond]
      have harith : (N : Int) - (k : Int) - 1 = (N : Int) - ((k : Int) + 1) := by ring
      have htick : (k + 1) * D + D = (k + 1 + 1) * D := by ring
      simp [harith, htick]
    · have hEq : k + 1 = N := Nat.le_antisymm hk (Nat.not_lt.mp h)
      rw [if_neg h]
      have hcond : (N : Int) - (k : Int) - 1 ≤ 0 := by omega
      simp only [fireEvent, processEvent]
      rw [if_pos hcond]
      have : (N : Int) - (k : Int) - 1 = 0 := by omega
      simp [this]

/-- A `Done` state (event idle) is a fixed point of the host loop. -/
lemma fireEvent_of_idle (s : HelloObject23) (h : s.eventWhen = none) :
    fireEvent s = s := by
  simp [fireEvent, h]

/-- A `Done` state (event idle) stays fixed under any number of host steps. -/
lemma run_of_idle (s : HelloObject23) (h : s.eventWhen = none) :
    ∀ n, run n s = s := by
  intro n
  induction n with
  | zero => rfl
  | succ n ihn =>
    show fireEvent (run n s) = s
    rw [ihn, fireEvent_of_idle s h]

/-- The handler decrements `timesLeft` by exactly one, in both branches. -/
lemma processEvent_timesLeft (s : HelloObject23) (t : Tick) :
    (processEvent s t).timesLeft = s.timesLeft - 1 := by
  simp only [processEvent, schedule]
  split <;> rfl

/-- The handler never touches `latency`. -/
lemma processEvent_latency (s : HelloObject23) (t : Tick) :
    (processEvent s t).latency = s.latency := by
  simp only [processEvent, schedule]
  split <;> rfl

/-- When the counter after the decrement is not positive, the handler makes
no scheduling call, so the event's queue state is left as the host dispatch
left it. -/
lemma processEvent_no_reschedule (s : HelloObject23) (t : Tick)
    (h : s.timesLeft - 1 ≤ 0) :
    (processEvent s t).eventWhen = s.eventWhen := by
  simp only [processEvent]
  rw [if_pos h]

/-- One host step never touches `latency`. -/
lemma fireEvent_latency (s : HelloObject23) :
    (fireEvent s).latency = s.latency := by
  cases h : s.eventWhen with
  | none => rw [fireEvent_of_idle s h]
  | some t =>
    simp only [fireEvent, h]
    rw [processEvent_latency]

/-- Any number of host steps never touches `latency`. -/
lemma run_latency (s : HelloObject23) (n : Nat) :
    (run n s).latency = s.latency := by
  induction n with
  | zero => rfl
  | succ n ihn =>
    show (fireEvent (run n s)).latency = s.latency
    rw [fireEvent_latency, ihn]

/-! ### Claims -/

/-- Claim C1: for every object constructed with initial counter `N > 0` and
delay `D`, activation followed by exactly `N` firings performs exactly `N`
decrements of the counter (each of the `N` firings lowers it by exactly one,
so it ends at `N - N`), the counter ends at a value ≤ 0, and no `(N+1)`-th
callback is scheduled. -/
theorem C1_activation_then_N_firings (D N : Nat) (hN : 0 < N) :
    (∀ k, k < N →
      (run (k + 1) (startup (mkObj D (N : Int)))).timesLeft =
        (run k (startup (mkObj D (N : Int)))).timesLeft - 1) ∧
    (run N (startup (mkObj D (N : Int)))).timesLeft = (N : Int) - (N : Int) ∧
    (run N (startup (mkObj D (N : Int)))).timesLeft ≤ 0 ∧
    (run N (startup (mkObj D (N : Int)))).eventWhen = none := by
  have hfin := run_startup_mk D N hN N le_rfl
  rw [if_neg (lt_irrefl N)] at hfin
  refine ⟨?_, ?_, ?_, ?_⟩
  · intro k hk
    show (fireEvent (run k (startup (mkObj D (N : Int))))).timesLeft = _
    rw [run_startup_mk D N hN k (Nat.le_of_lt hk), if_pos hk]
    simp only [fireEvent]
    rw [processEvent_timesLeft]
  · rw [hfin]; simp
  · rw [hfin]
  · rw [hfin]

/-- Witness for C1 at `D = 7`, `N = 3`. -/
theorem C1_witness :
    (run 3 (startup (mkObj 7 (3 : Int)))).timesLeft = (3 : Int) - (3 : Int) :=
  (C1_activation_then_N_firings 7 3 (by decide)).2.1

/-- Claim C2: activation schedules the first firing at `now + delay` for
every host time `now` at which activation may occur.  Per the spec the host
calls `startup` exactly once before simulated time begins advancing, i.e. at
tick 0, which is the hypothesis `h`; the source schedules at the absolute
tick `latency`, which equals `0 + latency`. -/
theorem C2_startup_schedules_now_plus_delay (s : HelloObject23) (now : Tick)
    (h : now = 0) :
    (startup s).eventWhen = some (now + s.latency) := by
  subst h
  simp [startup, schedule]

/-- Witness for C2 on the constructed object at host time 0. -/
theorem C2_witness :
    (0 : Tick) = 0 ∧ (startup construct).eventWhen = some (0 + construct.latency) :=
  ⟨rfl, C2_startup_schedules_now_plus_delay construct 0 rfl⟩

/-- Claim C3: in every state, a host step never increases the counter; once
the counter is ≤ 0, a host step never leaves a callback scheduled; the Done
state (counter ≤ 0, no pending callback) is terminal under any number of host
steps; and at most one callback is ever pending for the object. -/
theorem C3_invariants :
    (∀ s : HelloObject23, (fireEvent s).timesLeft ≤ s.timesLeft) ∧
    (∀ s : HelloObject23, s.timesLeft ≤ 0 → (fireEvent s).eventWhen = none) ∧
    (∀ (s : HelloObject23) (n : Nat),
      s.timesLeft ≤ 0 → s.eventWhen = none → run n s = s) ∧
    (∀ s : HelloObject23, pendingCount s ≤ 1) := by
  refine ⟨?_, ?_, ?_, ?_⟩
  · intro s
    cases h : s.eventWhen with
    | none => rw [fireEvent_of_idle s h]
    | some t =>
      simp only [fireEvent, h]
      rw [processEvent_timesLeft]
      show s.timesLeft - 1 ≤ s.timesLeft
      omega
  · intro s hs
    cases h : s.eventWhen with
    | none => rw [fireEvent_of_idle s h]; exact h
    | some t =>
      simp only [fireEvent, h]
      rw [processEvent_no_reschedule { s with eventWhen := none } t
            (show s.timesLeft - 1 ≤ 0 by omega)]
  · intro s n _ hidle
    exact run_of_idle s hidle n
  · intro s
    cases h : s.eventWhen <;> simp [pendingCount, h]

/-- Witness for C3: monotonicity at a live state, no rescheduling from an
exhausted state, terminality of a Done state, and the pending bound. -/
theorem C3_witness :
    (fireEvent ⟨100, 2, some 100⟩).timesLeft ≤
      (⟨100, 2, some 100⟩ : HelloObject23).timesLeft ∧
    (fireEvent ⟨100, 0, some 300⟩).eventWhen = none ∧
    run 5 ⟨100, -1, none⟩ = ⟨100, -1, none⟩ ∧
    pendingCount ⟨100, 3, some 100⟩ ≤ 1 :=
  ⟨C3_invariants.1 ⟨100, 2, some 100⟩,
   C3_invariants.2.1 ⟨100, 0, some 300⟩ (by decide),
   C3_invariants.2.2.1 ⟨100, -1, none⟩ 5 (by decide) rfl,
   C3_invariants.2.2.2 ⟨100, 3, some 100⟩⟩

/-- Claim C4: for every non-terminal firing (counter still positive after
the decrement), the handler schedules the next firing at the tick of the
current firing plus the delay. -/
theorem C4_reschedule_at_prev_plus_delay (s : HelloObject23) (t : Tick)
    (h : 0 < s.timesLeft - 1) :
    (processEvent s t).eventWhen = some (t + s.latency) := by
  simp only [processEvent, schedule]
  rw [if_neg (by omega)]

/-- Witness for C4 at a state with counter 5 fired at tick 40. -/
theorem C4_witness :
    (0 : Int) < (⟨9, 5, none⟩ : HelloObject23).timesLeft - 1 ∧
    (processEvent ⟨9, 5, none⟩ 40).eventWhen =
      some (40 + (⟨9, 5, none⟩ : HelloObject23).latency) :=
  ⟨by decide, C4_reschedule_at_prev_plus_delay ⟨9, 5, none⟩ 40 (by decide)⟩

/-- Claim C5: the concrete object (initial counter 10, delay 100) fires at
ticks 100, 200, ..., 1000 and at no further tick (a budget of 11 host steps
observes exactly 10 firings), its counter takes the values 9, 8, ..., 0 after
the successive firings, and after the 10 firings it is exactly the Done state
with counter 0 and nothing scheduled, so that activation scheduled firing 1
at tick 100 and each firing k < 10 scheduled firing k+1 at tick 100(k+1). -/
theorem C5_concrete_scenario :
    (startup construct).eventWhen = some 100 ∧
    fireTicks 11 (startup construct) =
      [100, 200, 300, 400, 500, 600, 700, 800, 900, 1000] ∧
    counterTrace 11 (startup construct) = [9, 8, 7, 6, 5, 4, 3, 2, 1, 0] ∧
    run 10 (startup construct) = ⟨100, 0, none⟩ := by
  refine ⟨rfl, by decide, by decide, by decide⟩

/-- Claim C6: with an initial counter ≤ 0 there is no guard: activation
still schedules a callback for tick `D`; the first firing decrements the
counter to `N - 1` and reaches the terminal Done state with nothing
scheduled; and no later host step fires again — exactly one firing occurs. -/
theorem C6_nonpositive_initial_fires_once (D : Tick) (N : Int) (hN : N ≤ 0) :
    (startup (mkObj D N)).eventWhen = some D ∧
    run 1 (startup (mkObj D N)) = ⟨D, N - 1, none⟩ ∧
    (∀ n, 1 ≤ n → run n (startup (mkObj D N)) = ⟨D, N - 1, none⟩) := by
  have h1 : run 1 (startup (mkObj D N)) = ⟨D, N - 1, none⟩ := by
    show fireEvent (startup (mkObj D N)) = _
    simp only [startup, mkObj, schedule, fireEvent, processEvent]
    rw [if_pos (by omega)]
  refine ⟨rfl, h1, ?_⟩
  have hstep : ∀ m, run (m + 1) (startup (mkObj D N)) = ⟨D, N - 1, none⟩ := by
    intro m
    induction m with
    | zero => exact h1
    | succ m ihm =>
      show fireEvent (run (m + 1) (startup (mkObj D N))) = _
      rw [ihm, fireEvent_of_idle _ rfl]
  intro n hn
  obtain ⟨m, rfl⟩ := Nat.exists_eq_add_of_le hn
  rw [Nat.add_comm]
  exact hstep m

/-- Witness for C6 at `D = 4`, `N = 0`. -/
theorem C6_witness :
    (0 : Int) ≤ 0 ∧ run 1 (startup (mkObj 4 (0 : Int))) = ⟨4, -1, none⟩ :=
  ⟨le_refl 0, (C6_nonpositive_initial_fires_once 4 0 (le_refl 0)).2.1⟩

/-- Claim C7: construction stores the delay (100) and the initial counter
(10), issues no scheduling call (the event starts idle), and the first
scheduling call happens at activation. -/
theorem C7_construction_schedules_nothing :
    construct.latency = 100 ∧ construct.timesLeft = 10 ∧
    construct.eventWhen = none ∧
    (startup construct).eventWhen = some construct.latency :=
  ⟨rfl, rfl, rfl, rfl⟩

/-- Claim C8: for every initial counter `N > 0`, the counter after the
terminal (`N`-th) firing is exactly 0, never negative, because the terminal
check follows each single-step decrement. -/
theorem C8_terminal_counter_exactly_zero (D N : Nat) (hN : 0 < N) :
    (run N (startup (mkObj D (N : Int)))).timesLeft = 0 := by
  rw [run_startup_mk D N hN N le_rfl, if_neg (lt_irrefl N)]

/-- Witness for C8 at `D = 100`, `N = 10`. -/
theorem C8_witness :
    (run 10 (startup (mkObj 100 (10 : Int)))).timesLeft = 0 :=
  C8_terminal_counter_exactly_zero 100 10 (by decide)

/-- Claim C9: every invocation of the handler decrements the counter by
exactly one, unconditionally; when the counter was already ≤ 0 beforehand it
simply becomes more negative and, as always in that branch, no new callback
is scheduled. -/
theorem C9_unconditional_decrement (s : HelloObject23) (t : Tick) :
    (processEvent s t).timesLeft = s.timesLeft - 1 ∧
    (s.timesLeft ≤ 0 → (processEvent s t).eventWhen = s.eventWhen) :=
  ⟨processEvent_timesLeft s t,
   fun h => processEvent_no_reschedule s t (by omega)⟩

/-- Witness for C9 at a state whose counter is already negative. -/
theorem C9_witness :
    (processEvent ⟨100, -2, none⟩ 55).timesLeft =
      (⟨100, -2, none⟩ : HelloObject23).timesLeft - 1 ∧
    ((⟨100, -2, none⟩ : HelloObject23).timesLeft ≤ 0 →
      (processEvent ⟨100, -2, none⟩ 55).eventWhen =
        (⟨100, -2, none⟩ : HelloObject23).eventWhen) :=
  C9_unconditional_decrement ⟨100, -2, none⟩ 55

/-- Claim C10: no operation modifies any member other than the counter (and
the queue state of the object's event, which the host owns): construction
fixes the delay at 100, activation changes neither the delay nor the counter,
and no handler invocation or sequence of host steps ever changes the delay. -/
theorem C10_delay_never_modified :
    construct.latency = 100 ∧
    (∀ s : HelloObject23,
      (startup s).latency = s.latency ∧ (startup s).timesLeft = s.timesLeft) ∧
    (∀ (s : HelloObject23) (t : Tick), (processEvent s t).latency = s.latency) ∧
    (∀ (s : HelloObject23) (n : Nat), (run n s).latency = s.latency) :=
  ⟨rfl, fun _ => ⟨rfl, rfl⟩, processEvent_latency, run_latency⟩

end HelloTutorial
